import Mathlib

/-!
Verification development for the GITRIS deck-building frontend
(`src/app/deck/deckmain.tsx`).

The placement engine of the page is shallowly embedded here:

* the scoring grid is either absent (the initial `useState([])`) or a full
  8×7 matrix of cells, modelled as `Option (Fin 7 → Fin 8 → Cell)`;
* machine numbers of the source are modelled as `Int`/`Nat` (all arithmetic
  in the engine is exact integer arithmetic; the pivots are half-integers,
  modelled as `Rat`, and `Math.round` is `round : Rat → Int`, both being
  floor of the argument plus one half);
* the React state (`contributionGrid`, `placedTetrominos`) is an explicit
  `EngineState`, and each user intent (drop of a new piece, drop of a placed
  piece, rotate, delete, refetch of the contribution data) is an `Op`
  acting on the state through `step`.

`Date.now()`, used by the source for piece ids, is modelled as an explicit
`now : Nat` argument carried by the operations that can generate an id.
-/

namespace Gitris

/-- The seven tetromino variants of `TETROMINO_SHAPES`. -/
inductive Tet where
  | I | J | L | O | S | T | Z
deriving DecidableEq, Repr, Fintype

open Tet

/-- Relative coordinates of each piece (source constant `TETROMINO_SHAPES`). -/
def TETROMINO_SHAPES : Tet → List (Int × Int)
  | .I => [(0, 0), (1, 0), (2, 0), (3, 0)]
  | .J => [(0, 0), (0, 1), (1, 1), (2, 1)]
  | .L => [(2, 0), (0, 1), (1, 1), (2, 1)]
  | .O => [(0, 0), (1, 0), (0, 1), (1, 1)]
  | .S => [(1, 0), (2, 0), (0, 1), (1, 1)]
  | .T => [(1, 0), (0, 1), (1, 1), (2, 1)]
  | .Z => [(0, 0), (1, 0), (1, 1), (2, 1)]

/-- Rotation pivots (source constant `TETROMINO_PIVOTS`), stored DOUBLED so
that all arithmetic stays in `Int`: the source pivot of `I` is `[1.5, 0.5]`,
here `(3, 1)`; of `O` is `[0.5, 0.5]`, here `(1, 1)`; the others are the
integer point `[1, 1]`, here `(2, 2)`.  Every quantity the source computes
from a pivot is a multiple of `1/2`, so the doubled representation is
exact. -/
def TETROMINO_PIVOTS2 : Tet → Int × Int
  | .I => (3, 1)
  | .J => (2, 2)
  | .L => (2, 2)
  | .O => (1, 1)
  | .S => (2, 2)
  | .T => (2, 2)
  | .Z => (2, 2)

/-- Grid width (source constant `GRID_WIDTH`). -/
def GRID_WIDTH : Nat := 8

/-- Grid height (source constant `GRID_HEIGHT`). -/
def GRID_HEIGHT : Nat := 7

/-- The exact values of `Math.round(Math.cos(angle*π/180))` and
`Math.round(Math.sin(angle*π/180))` for the four right angles.  Rotation
values in the engine are always in `{0, 90, 180, 270}` (they start at `0`
and evolve by `(r + 90) % 360`), so only those four cases are ever taken. -/
def cosSin (angle : Nat) : Int × Int :=
  match angle with
  | 0 => (1, 0)
  | 90 => (0, 1)
  | 180 => (-1, 0)
  | 270 => (0, -1)
  | _ => (1, 0)

/-- The JS `Math.round` applied to a half-integer `n / 2`: `Math.round v`
is `⌊v + 1/2⌋`, and `⌊n/2 + 1/2⌋ = ⌊(n+1)/2⌋`, which is `Int.fdiv (n+1) 2`
(`fdiv` is floor division). -/
def roundHalf (n : Int) : Int := (n + 1).fdiv 2

/-- Source function `rotateShape`: translate each point by the negated
pivot, apply the right-angle rotation matrix, translate back, and round
(`Math.round`).  All values are carried doubled (the pivot is doubled, see
`TETROMINO_PIVOTS2`), so the translated and rotated coordinates are exact
integers representing multiples of `1/2`; `roundHalf` performs the final
`Math.round` on such a doubled value. -/
def rotateShape (shape : List (Int × Int)) (pivot2 : Int × Int) (angle : Nat) :
    List (Int × Int) :=
  let cs := cosSin angle
  shape.map fun p =>
    let translatedX2 := 2 * p.1 - pivot2.1
    let translatedY2 := 2 * p.2 - pivot2.2
    let rotatedX2 := translatedX2 * cs.1 - translatedY2 * cs.2
    let rotatedY2 := translatedX2 * cs.2 + translatedY2 * cs.1
    (roundHalf (rotatedX2 + pivot2.1), roundHalf (rotatedY2 + pivot2.2))

/-- Source function `getContributionLevel`: the step function from a
contribution count to a level. -/
def getContributionLevel (count : Int) : Int :=
  if count > 20 then 5
  else if count > 10 then 4
  else if count > 5 then 3
  else if count > 0 then 2
  else if count ≥ 0 then 1
  else 0

/-- Source function `getScoreFromContributionLevel`. -/
def getScoreFromContributionLevel (level : Int) : Int :=
  level * 100

/-- One record of the contribution feed, as consumed by
`transformContributionsToGrid` (the source reads `contribution.count` and
`contribution.date`). -/
structure Contribution where
  count : Int
  date : String
deriving DecidableEq, Repr

/-- One cell of the scoring grid.  The initial fill of
`transformContributionsToGrid` stores the literal `{count: 0, level: 0}`
with no date. -/
structure Cell where
  count : Int
  level : Int
  date : Option String
deriving DecidableEq, Repr

/-- The React state `contributionGrid` is either the initial empty array or
a full `GRID_HEIGHT × GRID_WIDTH` matrix produced by
`transformContributionsToGrid` (indexed `grid[y][x]`); it is modelled as
`none` or a total function. -/
abbrev Grid := Option (Fin 7 → Fin 8 → Cell)

/-- The assignment `grid[y][x] = c` on a full matrix (out-of-range indices
assign nothing, matching the source guard). -/
def gridSet (g : Fin 7 → Fin 8 → Cell) (y x : Nat) (c : Cell) :
    Fin 7 → Fin 8 → Cell :=
  fun y' x' => if y'.val = y ∧ x'.val = x then c else g y' x'

/-- The initial fill of `transformContributionsToGrid`: every cell is the
shared literal `{count: 0, level: 0}` (no date). -/
def transformInit : Fin 7 → Fin 8 → Cell :=
  fun _ _ => { count := 0, level := 0, date := none }

/-- One iteration of the fill loop of `transformContributionsToGrid`: if a
contribution record exists at index `i`, store its count, derived level and
date at `x = i / GRID_HEIGHT`, `y = i % GRID_HEIGHT` (guarded, as in the
source, by the bounds check on `x` and `y`). -/
def transformBody (contributions : List Contribution)
    (grid : Fin 7 → Fin 8 → Cell) (i : Nat) : Fin 7 → Fin 8 → Cell :=
  match contributions[i]? with
  | some contribution =>
    let x := i / GRID_HEIGHT
    let y := i % GRID_HEIGHT
    if y < GRID_HEIGHT ∧ x < GRID_WIDTH then
      gridSet grid y x
        { count := contribution.count
          level := getContributionLevel contribution.count
          date := some contribution.date }
    else grid
  | none => grid

/-- Source function `transformContributionsToGrid`: starts from
`transformInit` and runs `transformBody` for each index
`i < GRID_WIDTH * GRID_HEIGHT`. -/
def transformContributionsToGrid (contributions : List Contribution) :
    Fin 7 → Fin 8 → Cell :=
  (List.range (GRID_WIDTH * GRID_HEIGHT)).foldl
    (transformBody contributions) transformInit

/-- The level consulted by `calculateTetrominoDetails` at an absolute cell:
`0` unless the coordinate is inside the grid bounds and the grid has been
loaded (source guard `ay >= 0 && ay < GRID_HEIGHT && ax >= 0 &&
ax < GRID_WIDTH && contributionGrid.length > 0 && contributionGrid[ay] &&
contributionGrid[ay][ax]`). -/
def levelAtCell (contributionGrid : Grid) (ax ay : Int) : Int :=
  match contributionGrid with
  | none => 0
  | some g =>
    if h : 0 ≤ ay ∧ ay < 7 ∧ 0 ≤ ax ∧ ax < 8 then
      (g ⟨ay.toNat, by omega⟩ ⟨ax.toNat, by omega⟩).level
    else 0

/-- One entry of `blockDetails` as pushed by `calculateTetrominoDetails`. -/
structure BlockDetail where
  x : Int
  y : Int
  level : Int
  score : Int
  colorIndex : Int
deriving DecidableEq, Repr

/-- The record returned by `calculateTetrominoDetails`. -/
structure TetrominoDetails where
  absolutePositions : List (Int × Int)
  scorePotential : Int
  blockDetails : List BlockDetail
deriving DecidableEq, Repr

/-- Source function `calculateTetrominoDetails`: rotate the shape, translate
it to the anchor, and derive the per-cell level, score and color index from
the current grid; `scorePotential` accumulates the per-cell scores. -/
def calculateTetrominoDetails (contributionGrid : Grid) (type : Tet)
    (currentX currentY : Int) (currentRotation : Nat) : TetrominoDetails :=
  let relativeShape :=
    rotateShape (TETROMINO_SHAPES type) (TETROMINO_PIVOTS2 type) currentRotation
  let absolutePositions := relativeShape.map fun r => (currentX + r.1, currentY + r.2)
  let blockDetails := absolutePositions.map fun a =>
    let level := levelAtCell contributionGrid a.1 a.2
    let score := getScoreFromContributionLevel level
    { x := a.1, y := a.2, level := level, score := score
      colorIndex := if level > 0 then level - 1 else -1 : BlockDetail }
  { absolutePositions := absolutePositions
    scorePotential := (blockDetails.map (·.score)).sum
    blockDetails := blockDetails }

/-- A placed piece as stored in the React state `placedTetrominos`. -/
structure PlacedTetromino where
  id : Nat
  type : Tet
  x : Int
  y : Int
  rotation : Nat
  absolutePositions : List (Int × Int)
  scorePotential : Int
  blockDetails : List BlockDetail
deriving DecidableEq, Repr

/-- Source function `checkCollision`: true iff some cell is outside the
grid bounds or coincides with a cell of a placed piece other than the
current one (`currentId` is the id of the piece being placed, `none` for a
brand-new piece whose `currentTetromino.id` is `null`). -/
def checkCollision (cellsToCheck : List (Int × Int)) (currentId : Option Nat)
    (placedTetrominos : List PlacedTetromino) : Bool :=
  cellsToCheck.any fun c =>
    if c.1 < 0 ∨ (GRID_WIDTH : Int) ≤ c.1 ∨ c.2 < 0 ∨ (GRID_HEIGHT : Int) ≤ c.2 then
      true
    else
      placedTetrominos.any fun placed =>
        if currentId = some placed.id then false
        else placed.absolutePositions.any fun q => decide (q = c)

/-- The value of the JS spread `Math.min(...list)` for a nonempty list. -/
def listMin (l : List Int) : Int := l.foldl min (l.headD 0)

/-- The value of the JS spread `Math.max(...list)` for a nonempty list. -/
def listMax (l : List Int) : Int := l.foldl max (l.headD 0)

/-- The rotated relative shape handled by `getAdjustedDropPosition` and
`calculateTetrominoDetails`. -/
def relativeShapeOf (type : Tet) (rotation : Nat) : List (Int × Int) :=
  rotateShape (TETROMINO_SHAPES type) (TETROMINO_PIVOTS2 type) rotation

/-- Source function `getAdjustedDropPosition`: computes the bounding box of
the rotated relative shape and the per-side overflows of the requested drop
position, then shifts the position back inside the grid (the four overflow
amounts are all computed from the original position before any shift is
applied, exactly as in the source). -/
def getAdjustedDropPosition (type : Tet) (rotation : Nat) (dropX dropY : Int) :
    Int × Int :=
  let relativeShape := relativeShapeOf type rotation
  let minX := listMin (relativeShape.map (·.1))
  let maxX := listMax (relativeShape.map (·.1))
  let minY := listMin (relativeShape.map (·.2))
  let maxY := listMax (relativeShape.map (·.2))
  let leftOverflow := -(dropX + minX)
  let rightOverflow := dropX + maxX - ((GRID_WIDTH : Int) - 1)
  let topOverflow := -(dropY + minY)
  let bottomOverflow := dropY + maxY - ((GRID_HEIGHT : Int) - 1)
  let adjustedX := if leftOverflow > 0 then dropX + leftOverflow else dropX
  let adjustedX2 := if rightOverflow > 0 then adjustedX - rightOverflow else adjustedX
  let adjustedY := if topOverflow > 0 then dropY + topOverflow else dropY
  let adjustedY2 := if bottomOverflow > 0 then adjustedY - bottomOverflow else adjustedY
  (adjustedX2, adjustedY2)

/-- The whole React state mutated by the drop / rotate / delete handlers
and by the contribution fetch. -/
structure EngineState where
  contributionGrid : Grid
  placedTetrominos : List PlacedTetromino

/-- The initial state: `useState([])` for both pieces of state. -/
def initialState : EngineState := { contributionGrid := none, placedTetrominos := [] }

/-- The JS expression `id || Date.now()` of `handlePlacement`: the id when
present and truthy (a JS `0` is falsy), otherwise the current timestamp. -/
def jsIdOr (id : Option Nat) (now : Nat) : Nat :=
  match id with
  | none => now
  | some i => if i = 0 then now else i

/-- The anchor used by `handlePlacement`: the drop position re-centered by
the floored pivot (`baseDropX - Math.floor(pivot[0])`, the pivot being half
the doubled pivot, so its floor is `fdiv 2`) and then clamped through
`getAdjustedDropPosition`. -/
def placeAnchor (type : Tet) (rotation : Nat) (baseDropX baseDropY : Int) :
    Int × Int :=
  getAdjustedDropPosition type rotation
    (baseDropX - (TETROMINO_PIVOTS2 type).1.fdiv 2)
    (baseDropY - (TETROMINO_PIVOTS2 type).2.fdiv 2)

/-- The piece that a successful `handlePlacement` builds: anchor from
`placeAnchor`, derived fields from `calculateTetrominoDetails`, id from
`id || Date.now()`. -/
def placedPieceOf (st : EngineState) (type : Tet) (rotation : Nat)
    (baseDropX baseDropY : Int) (id : Option Nat) (now : Nat) : PlacedTetromino :=
  let a := placeAnchor type rotation baseDropX baseDropY
  let details := calculateTetrominoDetails st.contributionGrid type a.1 a.2 rotation
  { id := jsIdOr id now, type := type, x := a.1, y := a.2
    rotation := rotation
    absolutePositions := details.absolutePositions
    scorePotential := details.scorePotential
    blockDetails := details.blockDetails }

/-- Source closure `handlePlacement` (inside `handleDrop`): center and clamp
the drop position, compute the details, reject on collision, otherwise
build the piece (a fresh `Date.now()` id when no id was supplied). -/
def handlePlacement (st : EngineState) (type : Tet) (rotation : Nat)
    (baseDropX baseDropY : Int) (id : Option Nat) (now : Nat) :
    Option PlacedTetromino :=
  if checkCollision (placedPieceOf st type rotation baseDropX baseDropY id now).absolutePositions
      id st.placedTetrominos then none
  else some (placedPieceOf st type rotation baseDropX baseDropY id now)

/-- The wall-kick offsets of `handleRotate`, in source order. -/
def kickTranslations : List (Int × Int) := [(0, 0), (-1, 0), (1, 0), (-2, 0), (2, 0)]

/-- The absolute cells tried by `handleRotate` for one kick offset: shift
the current anchor by the offset, clamp it for the new rotation, and
compute the resulting absolute positions. -/
def kickCells (st : EngineState) (t : PlacedTetromino) (newRotation : Nat)
    (k : Int × Int) : List (Int × Int) :=
  (calculateTetrominoDetails st.contributionGrid t.type
    (getAdjustedDropPosition t.type newRotation (t.x + k.1) (t.y + k.2)).1
    (getAdjustedDropPosition t.type newRotation (t.x + k.1) (t.y + k.2)).2
    newRotation).absolutePositions

/-- The collision test performed by `handleRotate` for one kick offset:
the cells of `kickCells` checked against every other piece. -/
def kickCollides (st : EngineState) (t : PlacedTetromino) (newRotation : Nat)
    (k : Int × Int) : Bool :=
  checkCollision (kickCells st t newRotation k) (some t.id) st.placedTetrominos

/-- The piece committed by `handleRotate` for a successful kick offset:
rotation, anchor and all derived fields updated. -/
def rotateCommit (grid : Grid) (t : PlacedTetromino) (newRotation : Nat)
    (k : Int × Int) : PlacedTetromino :=
  let a := getAdjustedDropPosition t.type newRotation (t.x + k.1) (t.y + k.2)
  let details := calculateTetrominoDetails grid t.type a.1 a.2 newRotation
  { t with rotation := newRotation, x := a.1, y := a.2
           absolutePositions := details.absolutePositions
           scorePotential := details.scorePotential
           blockDetails := details.blockDetails }

/-- The `for (const [dx, dy] of kickTranslations)` loop of `handleRotate`:
the first offset that does not collide is committed at the piece's index;
if all collide the list is returned unchanged. -/
def rotateKickLoop (st : EngineState) (t : PlacedTetromino)
    (tetrominoIndex : Nat) (newRotation : Nat) :
    List (Int × Int) → List PlacedTetromino
  | [] => st.placedTetrominos
  | k :: rest =>
    if kickCollides st t newRotation k then
      rotateKickLoop st t tetrominoIndex newRotation rest
    else
      st.placedTetrominos.set tetrominoIndex
        (rotateCommit st.contributionGrid t newRotation k)

/-- Source handler `handleRotate`: find the piece, compute the new rotation
`(rotation + 90) % 360` and run the wall-kick loop. -/
def handleRotate (st : EngineState) (id : Nat) : EngineState :=
  match st.placedTetrominos.findIdx? (fun t => t.id == id) with
  | none => st
  | some tetrominoIndex =>
    match st.placedTetrominos[tetrominoIndex]? with
    | none => st
    | some tetromino =>
      let newRotation := (tetromino.rotation + 90) % 360
      { st with placedTetrominos :=
          rotateKickLoop st tetromino tetrominoIndex newRotation kickTranslations }

/-- Source handler `handleDelete`: keep the pieces whose id differs. -/
def handleDelete (st : EngineState) (id : Nat) : EngineState :=
  { st with placedTetrominos := st.placedTetrominos.filter fun t => t.id != id }

/-- The recomputation the grid-refresh effect applies to one placed piece:
scores, block details and absolute positions are refreshed from the new
grid while id, type, anchor and rotation are carried over. -/
def refreshPiece (newGrid : Grid) (t : PlacedTetromino) : PlacedTetromino :=
  let d := calculateTetrominoDetails newGrid t.type t.x t.y t.rotation
  { t with scorePotential := d.scorePotential
           blockDetails := d.blockDetails
           absolutePositions := d.absolutePositions }

/-- A successful contribution refetch: the grid is replaced wholesale by
`transformContributionsToGrid` and the dependent effect recomputes every
placed piece's details against the new grid. -/
def refreshGrid (st : EngineState) (contributions : List Contribution) :
    EngineState :=
  let newGrid : Grid := some (transformContributionsToGrid contributions)
  { contributionGrid := newGrid
    placedTetrominos := st.placedTetrominos.map (refreshPiece newGrid) }

/-- The user-level mutations of the engine.  `now` is the value of
`Date.now()` at the corresponding drop event. -/
inductive Op where
  | place (type : Tet) (dropX dropY : Int) (now : Nat)
  | move (id : Nat) (dropX dropY : Int) (now : Nat)
  | rotate (id : Nat)
  | delete (id : Nat)
  | refresh (records : List Contribution)

/-- One mutation of the engine state.  A new placement uses rotation `0`
and no id; a move reuses the dragged piece's type and rotation and excludes
its id from the collision check, replacing every entry carrying that id; a
refetch whose payload is empty is rejected by `fetchContributions`
(`data.length === 0` throws) and leaves the state unchanged. -/
def step (st : EngineState) : Op → EngineState
  | .place type dropX dropY now =>
    match handlePlacement st type 0 dropX dropY none now with
    | none => st
    | some newPiece =>
      { st with placedTetrominos := st.placedTetrominos ++ [newPiece] }
  | .move id dropX dropY now =>
    match st.placedTetrominos.find? (fun t => t.id == id) with
    | none => st
    | some tetrominoToMove =>
      match handlePlacement st tetrominoToMove.type tetrominoToMove.rotation
          dropX dropY (some id) now with
      | none => st
      | some movedPiece =>
        { st with placedTetrominos :=
            st.placedTetrominos.map fun p => if p.id = id then movedPiece else p }
  | .rotate id => handleRotate st id
  | .delete id => handleDelete st id
  | .refresh records =>
    if records.isEmpty then st else refreshGrid st records

/-- A run of the engine from a state through a sequence of mutations. -/
def run (st : EngineState) (ops : List Op) : EngineState :=
  ops.foldl step st

/-- The ids currently present in the collection. -/
def idsOf (st : EngineState) : List Nat :=
  st.placedTetrominos.map (·.id)

/-- The timestamp of an id-generating operation is distinct from every id
already in the collection (what a well-behaved clock provides: `Date.now()`
values are fresh). -/
def freshOk (st : EngineState) : Op → Bool
  | .place _ _ _ now => decide (now ∉ idsOf st)
  | .move _ _ _ now => decide (now ∉ idsOf st)
  | _ => true

/-- `freshOk` along a whole run. -/
def freshRun (st : EngineState) : List Op → Bool
  | [] => true
  | op :: rest => freshOk st op && freshRun (step st op) rest

/-- The aggregate score: the `reduce` of the `potentialScore` effect. -/
def potentialScoreOf (placedTetrominos : List PlacedTetromino) : Int :=
  placedTetrominos.foldl (fun sum piece => sum + piece.scorePotential) 0

/-- The four rotation values reachable in the engine. -/
def rotSet : List Nat := [0, 90, 180, 270]

/-- A coordinate inside the 8 × 7 grid. -/
def inBoundsCell (c : Int × Int) : Prop :=
  0 ≤ c.1 ∧ c.1 < 8 ∧ 0 ≤ c.2 ∧ c.2 < 7

instance (c : Int × Int) : Decidable (inBoundsCell c) := by
  unfold inBoundsCell; infer_instance

theorem shape_length (t : Tet) : (TETROMINO_SHAPES t).length = 4 := by
  cases t <;> rfl

theorem relativeShapeOf_length (t : Tet) (r : Nat) :
    (relativeShapeOf t r).length = 4 := by
  simp [relativeShapeOf, rotateShape, shape_length]

theorem relativeShapeOf_nodup (t : Tet) {r : Nat} (hr : r ∈ rotSet) :
    (relativeShapeOf t r).Nodup := by
  fin_cases hr <;> revert t <;> decide

theorem rot_next {r : Nat} (hr : r ∈ rotSet) : (r + 90) % 360 ∈ rotSet := by
  fin_cases hr <;> decide

theorem foldl_min_le (l : List Int) (a : Int) : l.foldl min a ≤ a := by
  induction l generalizing a with
  | nil => simp
  | cons x xs ih => exact le_trans (ih (min a x)) (min_le_left a x)

theorem le_foldl_max (l : List Int) (a : Int) : a ≤ l.foldl max a := by
  induction l generalizing a with
  | nil => simp
  | cons x xs ih => exact le_trans (le_max_left a x) (ih (max a x))

theorem foldl_min_le_mem {l : List Int} {x : Int} (hx : x ∈ l) (a : Int) :
    l.foldl min a ≤ x := by
  induction l generalizing a with
  | nil => cases hx
  | cons y ys ih =>
    rcases List.mem_cons.mp hx with rfl | hmem
    · exact le_trans (foldl_min_le ys (min a x)) (min_le_right a x)
    · exact ih hmem (min a y)

theorem mem_le_foldl_max {l : List Int} {x : Int} (hx : x ∈ l) (a : Int) :
    x ≤ l.foldl max a := by
  induction l generalizing a with
  | nil => cases hx
  | cons y ys ih =>
    rcases List.mem_cons.mp hx with rfl | hmem
    · exact le_trans (le_max_right a x) (le_foldl_max ys (max a x))
    · exact ih hmem (max a y)

theorem listMin_le_mem {l : List Int} {x : Int} (hx : x ∈ l) : listMin l ≤ x :=
  foldl_min_le_mem hx _

theorem mem_le_listMax {l : List Int} {x : Int} (hx : x ∈ l) : x ≤ listMax l :=
  mem_le_foldl_max hx _

theorem listMin_le_listMax (l : List Int) : listMin l ≤ listMax l :=
  le_trans (foldl_min_le l (l.headD 0)) (le_foldl_max l (l.headD 0))

theorem calc_absolutePositions (g : Grid) (t : Tet) (x y : Int) (r : Nat) :
    (calculateTetrominoDetails g t x y r).absolutePositions =
      (relativeShapeOf t r).map fun p => (x + p.1, y + p.2) := rfl

theorem calc_abs_grid_indep (g g' : Grid) (t : Tet) (x y : Int) (r : Nat) :
    (calculateTetrominoDetails g t x y r).absolutePositions =
      (calculateTetrominoDetails g' t x y r).absolutePositions := rfl

theorem bbox_small :
    ∀ t : Tet, ∀ r ∈ rotSet,
      listMax ((relativeShapeOf t r).map (·.1)) -
          listMin ((relativeShapeOf t r).map (·.1)) + 1 ≤ 8 ∧
        listMax ((relativeShapeOf t r).map (·.2)) -
          listMin ((relativeShapeOf t r).map (·.2)) + 1 ≤ 7 := by
  decide

theorem adjusted_bbox_in_bounds (type : Tet) (rotation : Nat) (dropX dropY : Int)
    (hw : listMax ((relativeShapeOf type rotation).map (·.1)) -
        listMin ((relativeShapeOf type rotation).map (·.1)) + 1 ≤ 8)
    (hh : listMax ((relativeShapeOf type rotation).map (·.2)) -
        listMin ((relativeShapeOf type rotation).map (·.2)) + 1 ≤ 7) :
    0 ≤ (getAdjustedDropPosition type rotation dropX dropY).1 +
        listMin ((relativeShapeOf type rotation).map (·.1)) ∧
      (getAdjustedDropPosition type rotation dropX dropY).1 +
        listMax ((relativeShapeOf type rotation).map (·.1)) < 8 ∧
      0 ≤ (getAdjustedDropPosition type rotation dropX dropY).2 +
        listMin ((relativeShapeOf type rotation).map (·.2)) ∧
      (getAdjustedDropPosition type rotation dropX dropY).2 +
        listMax ((relativeShapeOf type rotation).map (·.2)) < 7 := by
  have h1 := listMin_le_listMax ((relativeShapeOf type rotation).map (·.1))
  have h2 := listMin_le_listMax ((relativeShapeOf type rotation).map (·.2))
  simp only [getAdjustedDropPosition, GRID_WIDTH, GRID_HEIGHT] at hw hh h1 h2 ⊢
  split_ifs <;> constructor <;> try constructor
  all_goals omega

theorem cells_in_bounds_of_adjusted (g : Grid) (type : Tet) {rotation : Nat}
    (hr : rotation ∈ rotSet) (dropX dropY : Int) :
    ∀ c ∈ (calculateTetrominoDetails g type
        (getAdjustedDropPosition type rotation dropX dropY).1
        (getAdjustedDropPosition type rotation dropX dropY).2
        rotation).absolutePositions, inBoundsCell c := by
  intro c hc
  rw [calc_absolutePositions] at hc
  obtain ⟨p, hp, rfl⟩ := List.mem_map.mp hc
  obtain ⟨hw, hh⟩ := bbox_small type rotation hr
  obtain ⟨b1, b2, b3, b4⟩ := adjusted_bbox_in_bounds type rotation dropX dropY hw hh
  have hx1 : listMin ((relativeShapeOf type rotation).map (·.1)) ≤ p.1 :=
    listMin_le_mem (List.mem_map_of_mem _ hp)
  have hx2 : p.1 ≤ listMax ((relativeShapeOf type rotation).map (·.1)) :=
    mem_le_listMax (List.mem_map_of_mem _ hp)
  have hy1 : listMin ((relativeShapeOf type rotation).map (·.2)) ≤ p.2 :=
    listMin_le_mem (List.mem_map_of_mem _ hp)
  have hy2 : p.2 ≤ listMax ((relativeShapeOf type rotation).map (·.2)) :=
    mem_le_listMax (List.mem_map_of_mem _ hp)
  exact ⟨by omega, by omega, by omega, by omega⟩

theorem checkCollision_false_bounds {cells : List (Int × Int)} {cid : Option Nat}
    {ps : List PlacedTetromino} (h : checkCollision cells cid ps = false) :
    ∀ c ∈ cells, inBoundsCell c := by
  intro c hc
  rw [checkCollision, List.any_eq_false] at h
  have h2 := h c hc
  split at h2
  · exact absurd rfl h2
  · rename_i hcond
    push_neg at hcond
    simp only [GRID_WIDTH, GRID_HEIGHT] at hcond
    obtain ⟨u1, u2, u3, u4⟩ := hcond
    exact ⟨by omega, by omega, by omega, by omega⟩

theorem checkCollision_false_no_overlap {cells : List (Int × Int)}
    {cid : Option Nat} {ps : List PlacedTetromino}
    (h : checkCollision cells cid ps = false) :
    ∀ c ∈ cells, ∀ p ∈ ps, cid ≠ some p.id → c ∉ p.absolutePositions := by
  intro c hc p hp hne hmem
  rw [checkCollision, List.any_eq_false] at h
  have h2 := h c hc
  split at h2
  · exact absurd rfl h2
  · rw [Bool.not_eq_true, List.any_eq_false] at h2
    have h3 := h2 p hp
    rw [if_neg hne] at h3
    exact h3 (List.any_eq_true.mpr ⟨c, hmem, by simp⟩)

theorem checkCollision_true_iff {cells : List (Int × Int)} {cid : Option Nat}
    {ps : List PlacedTetromino} (hb : ∀ c ∈ cells, inBoundsCell c) :
    checkCollision cells cid ps = true ↔
      ∃ p ∈ ps, cid ≠ some p.id ∧ ∃ c ∈ cells, c ∈ p.absolutePositions := by
  rw [checkCollision, List.any_eq_true]
  constructor
  · rintro ⟨c, hc, h⟩
    rw [if_neg] at h
    · rw [List.any_eq_true] at h
      obtain ⟨p, hp, h2⟩ := h
      split at h2
      · cases h2
      · rename_i hne
        rw [List.any_eq_true] at h2
        obtain ⟨q, hq, h3⟩ := h2
        rw [decide_eq_true_iff] at h3
        exact ⟨p, hp, hne, c, hc, h3 ▸ hq⟩
    · obtain ⟨b1, b2, b3, b4⟩ := hb c hc
      simp only [GRID_WIDTH, GRID_HEIGHT]
      push_neg
      exact ⟨by omega, by omega, by omega, by omega⟩
  · rintro ⟨p, hp, hne, c, hc, hcp⟩
    refine ⟨c, hc, ?_⟩
    rw [if_neg]
    · rw [List.any_eq_true]
      refine ⟨p, hp, ?_⟩
      rw [if_neg hne, List.any_eq_true]
      exact ⟨c, hcp, by simp⟩
    · obtain ⟨b1, b2, b3, b4⟩ := hb c hc
      simp only [GRID_WIDTH, GRID_HEIGHT]
      push_neg
      exact ⟨by omega, by omega, by omega, by omega⟩

theorem handlePlacement_eq_some {st : EngineState} {type : Tet} {rotation : Nat}
    {dX dY : Int} {id : Option Nat} {now : Nat} {m : PlacedTetromino}
    (h : handlePlacement st type rotation dX dY id now = some m) :
    checkCollision (placedPieceOf st type rotation dX dY id now).absolutePositions
        id st.placedTetrominos = false ∧
      m = placedPieceOf st type rotation dX dY id now := by
  unfold handlePlacement at h
  split at h
  · cases h
  · rename_i hcol
    exact ⟨by simpa using hcol, (Option.some_inj.mp h).symm⟩

/-- A piece is internally consistent with a grid: its rotation is one of
the four right angles, its stored derived fields agree with a fresh
`calculateTetrominoDetails` against the grid, and its cells are in
bounds. -/
def PieceOK (grid : Grid) (p : PlacedTetromino) : Prop :=
  p.rotation ∈ rotSet ∧
  calculateTetrominoDetails grid p.type p.x p.y p.rotation =
    { absolutePositions := p.absolutePositions
      scorePotential := p.scorePotential
      blockDetails := p.blockDetails } ∧
  ∀ c ∈ p.absolutePositions, inBoundsCell c

/-- Every placed piece is internally consistent with the current grid. -/
def InvBase (s : EngineState) : Prop :=
  ∀ p ∈ s.placedTetrominos, PieceOK s.contributionGrid p

/-- Two pieces occupy no common cell. -/
def Disj (p q : PlacedTetromino) : Prop :=
  ∀ c ∈ p.absolutePositions, c ∉ q.absolutePositions

/-- Ids are pairwise distinct and cells of distinct entries are disjoint. -/
def InvGeom (s : EngineState) : Prop :=
  (idsOf s).Nodup ∧ s.placedTetrominos.Pairwise Disj

theorem pieceOK_placed (st : EngineState) (type : Tet) (rotation : Nat)
    (dX dY : Int) (id : Option Nat) (now : Nat)
    (hrot : rotation ∈ rotSet)
    (hcol : checkCollision (placedPieceOf st type rotation dX dY id now).absolutePositions
      id st.placedTetrominos = false) :
    PieceOK st.contributionGrid (placedPieceOf st type rotation dX dY id now) :=
  ⟨hrot, rfl, fun c hc => checkCollision_false_bounds hcol c hc⟩

theorem pieceOK_rotateCommit (st : EngineState) (t : PlacedTetromino)
    (nr : Nat) (k : Int × Int)
    (hnr : nr ∈ rotSet)
    (hcol : kickCollides st t nr k = false) :
    PieceOK st.contributionGrid (rotateCommit st.contributionGrid t nr k) :=
  ⟨hnr, rfl, fun c hc => checkCollision_false_bounds hcol c hc⟩

theorem step_place_none {s : EngineState} {type : Tet} {dX dY : Int} {now : Nat}
    (h : handlePlacement s type 0 dX dY none now = none) :
    step s (Op.place type dX dY now) = s := by
  simp [step, h]

theorem step_place_some {s : EngineState} {type : Tet} {dX dY : Int} {now : Nat}
    {m : PlacedTetromino}
    (h : handlePlacement s type 0 dX dY none now = some m) :
    step s (Op.place type dX dY now) =
      { s with placedTetrominos := s.placedTetrominos ++ [m] } := by
  simp [step, h]

theorem step_move_absent {s : EngineState} {id : Nat} {dX dY : Int} {now : Nat}
    (h : s.placedTetrominos.find? (fun t => t.id == id) = none) :
    step s (Op.move id dX dY now) = s := by
  simp [step, h]

theorem step_move_none {s : EngineState} {id : Nat} {dX dY : Int} {now : Nat}
    {t : PlacedTetromino}
    (hf : s.placedTetrominos.find? (fun t => t.id == id) = some t)
    (h : handlePlacement s t.type t.rotation dX dY (some id) now = none) :
    step s (Op.move id dX dY now) = s := by
  simp [step, hf, h]

theorem step_move_some {s : EngineState} {id : Nat} {dX dY : Int} {now : Nat}
    {t m : PlacedTetromino}
    (hf : s.placedTetrominos.find? (fun t => t.id == id) = some t)
    (h : handlePlacement s t.type t.rotation dX dY (some id) now = some m) :
    step s (Op.move id dX dY now) =
      { s with placedTetrominos :=
          s.placedTetrominos.map fun p => if p.id = id then m else p } := by
  simp [step, hf, h]

theorem step_rotate {s : EngineState} {id : Nat} :
    step s (Op.rotate id) = handleRotate s id := rfl

theorem step_delete {s : EngineState} {id : Nat} :
    step s (Op.delete id) =
      { s with placedTetrominos := s.placedTetrominos.filter fun t => t.id != id } := rfl

theorem step_refresh {s : EngineState} {records : List Contribution}
    (h : records ≠ []) :
    step s (Op.refresh records) = refreshGrid s records := by
  simp [step, List.isEmpty_iff, h]

theorem handleRotate_absent {st : EngineState} {id : Nat}
    (h1 : st.placedTetrominos.findIdx? (fun t => t.id == id) = none) :
    handleRotate st id = st := by
  unfold handleRotate
  rw [h1]

theorem handleRotate_eq {st : EngineState} {id : Nat} {idx : Nat}
    {t : PlacedTetromino}
    (h1 : st.placedTetrominos.findIdx? (fun t => t.id == id) = some idx)
    (h2 : st.placedTetrominos[idx]? = some t) :
    handleRotate st id =
      { st with placedTetrominos :=
          rotateKickLoop st t idx ((t.rotation + 90) % 360) kickTranslations } := by
  unfold handleRotate
  rw [h1]
  dsimp only
  rw [h2]

theorem rotateKickLoop_all_collide {st : EngineState} {t : PlacedTetromino}
    {idx nr : Nat} :
    ∀ ks, (∀ k ∈ ks, kickCollides st t nr k = true) →
      rotateKickLoop st t idx nr ks = st.placedTetrominos := by
  intro ks
  induction ks with
  | nil => intro _; rfl
  | cons k rest ih =>
    intro h
    simp only [rotateKickLoop]
    rw [if_pos (h k (List.mem_cons_self k rest))]
    exact ih fun a ha => h a (List.mem_cons_of_mem _ ha)

theorem rotateKickLoop_first {st : EngineState} {t : PlacedTetromino}
    {idx nr : Nat} :
    ∀ ks₁ (k : Int × Int) ks₂,
      (∀ k' ∈ ks₁, kickCollides st t nr k' = true) →
      kickCollides st t nr k = false →
      rotateKickLoop st t idx nr (ks₁ ++ k :: ks₂) =
        st.placedTetrominos.set idx (rotateCommit st.contributionGrid t nr k) := by
  intro ks₁
  induction ks₁ with
  | nil =>
    intro k ks₂ _ hk
    simp only [List.nil_append, rotateKickLoop]
    rw [if_neg (by simp [hk])]
  | cons a rest ih =>
    intro k ks₂ h hk
    simp only [List.cons_append, rotateKickLoop]
    rw [if_pos (h a (List.mem_cons_self a _))]
    exact ih k ks₂ (fun b hb => h b (List.mem_cons_of_mem _ hb)) hk

theorem rotateKickLoop_cases (st : EngineState) (t : PlacedTetromino)
    (idx nr : Nat) :
    ∀ ks, rotateKickLoop st t idx nr ks = st.placedTetrominos ∨
      ∃ k ∈ ks, kickCollides st t nr k = false ∧
        rotateKickLoop st t idx nr ks =
          st.placedTetrominos.set idx (rotateCommit st.contributionGrid t nr k) := by
  intro ks
  induction ks with
  | nil => left; rfl
  | cons k rest ih =>
    by_cases hk : kickCollides st t nr k = true
    · have hstep : rotateKickLoop st t idx nr (k :: rest) =
          rotateKickLoop st t idx nr rest := by
        simp only [rotateKickLoop]
        rw [if_pos hk]
      rcases ih with h | ⟨a, ha, hfree, heq⟩
      · left; rw [hstep, h]
      · right; exact ⟨a, List.mem_cons_of_mem _ ha, hfree, by rw [hstep, heq]⟩
    · have hk' : kickCollides st t nr k = false := by
        simpa using hk
      right
      refine ⟨k, List.mem_cons_self k rest, hk', ?_⟩
      simp only [rotateKickLoop]
      rw [if_neg (by simp [hk'])]

theorem nodup_map_replace (ids : List Nat) (old new : Nat) (h : ids.Nodup)
    (h2 : new = old ∨ new ∉ ids) :
    (ids.map fun v => if v = old then new else v).Nodup := by
  rcases h2 with rfl | hnew
  · have hid : ∀ v : Nat, (if v = new then new else v) = v := by
      intro v; split <;> simp_all
    have hmap : (ids.map fun v => if v = new then new else v) = ids := by
      simp only [hid]
      exact List.map_id ids
    rw [hmap]
    exact h
  · induction ids with
    | nil => simp
    | cons v tl ih =>
      rw [List.map_cons]
      have hv := List.nodup_cons.mp h
      have hnew_tl : new ∉ tl := fun hmem => hnew (List.mem_cons_of_mem _ hmem)
      refine List.nodup_cons.mpr ⟨?_, ih hv.2 hnew_tl⟩
      intro hmem
      obtain ⟨w, hw, hweq⟩ := List.mem_map.mp hmem
      by_cases hv_old : v = old
      · rw [if_pos hv_old] at hweq
        by_cases hw_old : w = old
        · exact hv.1 (hv_old ▸ hw_old ▸ hw)
        · rw [if_neg hw_old] at hweq
          exact hnew_tl (hweq ▸ hw)
      · rw [if_neg hv_old] at hweq
        by_cases hw_old : w = old
        · rw [if_pos hw_old] at hweq
          exact hnew (hweq ▸ List.mem_cons_self v tl)
        · rw [if_neg hw_old] at hweq
          exact hv.1 (hweq ▸ hw)

theorem invBase_step {s : EngineState} (op : Op) (h : InvBase s) :
    InvBase (step s op) := by
  cases op with
  | place type dX dY now =>
    cases hp : handlePlacement s type 0 dX dY none now with
    | none => rw [step_place_none hp]; exact h
    | some m =>
      rw [step_place_some hp]
      intro p hmem
      rcases List.mem_append.mp hmem with hold | hnew
      · exact h p hold
      · obtain rfl := List.mem_singleton.mp hnew
        obtain ⟨hcol, rfl⟩ := handlePlacement_eq_some hp
        exact pieceOK_placed s type 0 dX dY none now (by decide) hcol
  | move id dX dY now =>
    cases hf : s.placedTetrominos.find? (fun t => t.id == id) with
    | none => rw [step_move_absent hf]; exact h
    | some t =>
      cases hp : handlePlacement s t.type t.rotation dX dY (some id) now with
      | none => rw [step_move_none hf hp]; exact h
      | some m =>
        rw [step_move_some hf hp]
        intro p hmem
        obtain ⟨q, hq, rfl⟩ := List.mem_map.mp hmem
        by_cases hid : q.id = id
        · rw [if_pos hid]
          obtain ⟨hcol, rfl⟩ := handlePlacement_eq_some hp
          have hrot : t.rotation ∈ rotSet := (h t (List.mem_of_find?_eq_some hf)).1
          exact pieceOK_placed s t.type t.rotation dX dY (some id) now hrot hcol
        · rw [if_neg hid]
          exact h q hq
  | rotate id =>
    rw [step_rotate]
    cases h1 : s.placedTetrominos.findIdx? (fun t => t.id == id) with
    | none => rw [handleRotate_absent h1]; exact h
    | some idx =>
      cases h2 : s.placedTetrominos[idx]? with
      | none =>
        unfold handleRotate
        rw [h1]
        dsimp only
        rw [h2]
        exact h
      | some t =>
        rw [handleRotate_eq h1 h2]
        rcases rotateKickLoop_cases s t idx ((t.rotation + 90) % 360)
            kickTranslations with heq | ⟨k, _, hfree, heq⟩
        · rw [heq]; exact h
        · rw [heq]
          intro p hmem
          rcases List.mem_or_eq_of_mem_set hmem with hold | rfl
          · exact h p hold
          · have htmem : t ∈ s.placedTetrominos := by
              rcases List.getElem?_eq_some.mp h2 with ⟨hlt, hget⟩
              exact hget ▸ List.getElem_mem hlt
            exact pieceOK_rotateCommit s t ((t.rotation + 90) % 360) k
              (rot_next (h t htmem).1) hfree
  | delete id =>
    rw [step_delete]
    intro p hmem
    exact h p (List.mem_of_mem_filter hmem)
  | refresh records =>
    by_cases hemp : records = []
    · subst hemp
      simpa [step] using h
    · rw [step_refresh hemp]
      intro p hmem
      obtain ⟨q, hq, rfl⟩ := List.mem_map.mp hmem
      obtain ⟨hqrot, hqdet, hqb⟩ := h q hq
      have habs : (calculateTetrominoDetails
          (some (transformContributionsToGrid records)) q.type q.x q.y
          q.rotation).absolutePositions = q.absolutePositions := by
        rw [calc_abs_grid_indep _ s.contributionGrid, hqdet]
      refine ⟨hqrot, rfl, ?_⟩
      intro c hc
      have hc' : c ∈ (calculateTetrominoDetails
          (some (transformContributionsToGrid records)) q.type q.x q.y
          q.rotation).absolutePositions := hc
      rw [habs] at hc'
      exact hqb c hc'

theorem ids_pairwise_ne {s : EngineState} (h : (idsOf s).Nodup) :
    s.placedTetrominos.Pairwise fun a b => a.id ≠ b.id :=
  List.pairwise_map.mp h

theorem invGeom_step {s : EngineState} (op : Op) (hb : InvBase s) (hg : InvGeom s)
    (hfr : freshOk s op = true) : InvGeom (step s op) := by
  cases op with
  | place type dX dY now =>
    have hfresh : now ∉ idsOf s := by simpa [freshOk] using hfr
    cases hp : handlePlacement s type 0 dX dY none now with
    | none => rw [step_place_none hp]; exact hg
    | some m =>
      obtain ⟨hcol, rfl⟩ := handlePlacement_eq_some hp
      rw [step_place_some hp]
      constructor
      · show ((s.placedTetrominos ++
          [placedPieceOf s type 0 dX dY none now]).map (·.id)).Nodup
        rw [List.map_append, List.nodup_append]
        refine ⟨hg.1, List.nodup_singleton _, ?_⟩
        intro a ha hmem
        have ha' : a = now := by simpa [placedPieceOf, jsIdOr] using hmem
        subst ha'
        exact hfresh ha
      · rw [List.pairwise_append]
        refine ⟨hg.2, List.pairwise_singleton _ _, ?_⟩
        intro a ha b hbmem
        obtain rfl := List.mem_singleton.mp hbmem
        intro c hca hcm
        exact checkCollision_false_no_overlap hcol c hcm a ha (by simp) hca
  | move id dX dY now =>
    have hfresh : now ∉ idsOf s := by simpa [freshOk] using hfr
    cases hf : s.placedTetrominos.find? (fun t => t.id == id) with
    | none => rw [step_move_absent hf]; exact hg
    | some t =>
      cases hp : handlePlacement s t.type t.rotation dX dY (some id) now with
      | none => rw [step_move_none hf hp]; exact hg
      | some m =>
        obtain ⟨hcol, rfl⟩ := handlePlacement_eq_some hp
        rw [step_move_some hf hp]
        constructor
        · show ((s.placedTetrominos.map fun p =>
            if p.id = id then placedPieceOf s t.type t.rotation dX dY (some id) now
            else p).map (·.id)).Nodup
          have hmapid : ((s.placedTetrominos.map fun p =>
              if p.id = id then placedPieceOf s t.type t.rotation dX dY (some id) now
              else p).map (·.id)) =
              (s.placedTetrominos.map (·.id)).map fun v =>
                if v = id then (placedPieceOf s t.type t.rotation dX dY (some id) now).id
                else v := by
            simp only [List.map_map]
            apply List.map_congr_left
            intro p _
            by_cases hpid : p.id = id <;> simp [Function.comp, hpid]
          rw [hmapid]
          apply nodup_map_replace _ _ _ hg.1
          by_cases h0 : id = 0
          · right
            have hid_now :
                (placedPieceOf s t.type t.rotation dX dY (some id) now).id = now := by
              simp [placedPieceOf, jsIdOr, h0]
            rw [hid_now]
            exact hfresh
          · left
            simp [placedPieceOf, jsIdOr, h0]
        · rw [List.pairwise_map, List.pairwise_iff_getElem]
          intro i j hi hj hij
          have hpne := List.pairwise_iff_getElem.mp (ids_pairwise_ne hg.1) i j hi hj hij
          have hdisj := List.pairwise_iff_getElem.mp hg.2 i j hi hj hij
          have hmi := List.getElem_mem hi
          have hmj := List.getElem_mem hj
          by_cases hii : s.placedTetrominos[i].id = id <;>
            by_cases hjj : s.placedTetrominos[j].id = id
          · exact absurd (hii.trans hjj.symm) hpne
          · rw [if_pos hii, if_neg hjj]
            intro c hcm hcj
            exact checkCollision_false_no_overlap hcol c hcm _ hmj
              (fun hcontra => hjj (Option.some_inj.mp hcontra).symm) hcj
          · rw [if_neg hii, if_pos hjj]
            intro c hci hcm
            exact checkCollision_false_no_overlap hcol c hcm _ hmi
              (fun hcontra => hii (Option.some_inj.mp hcontra).symm) hci
          · rw [if_neg hii, if_neg hjj]
            exact hdisj
  | rotate id =>
    rw [step_rotate]
    cases h1 : s.placedTetrominos.findIdx? (fun t => t.id == id) with
    | none => rw [handleRotate_absent h1]; exact hg
    | some idx =>
      cases h2 : s.placedTetrominos[idx]? with
      | none =>
        unfold handleRotate
        rw [h1]
        dsimp only
        rw [h2]
        exact hg
      | some t =>
        rw [handleRotate_eq h1 h2]
        rcases rotateKickLoop_cases s t idx ((t.rotation + 90) % 360)
            kickTranslations with heq | ⟨k, _, hfree, heq⟩
        · rw [heq]; exact hg
        · rw [heq]
          obtain ⟨hidx_lt, hidx_eq⟩ := List.getElem?_eq_some.mp h2
          constructor
          · have hids : ((s.placedTetrominos.set idx
                (rotateCommit s.contributionGrid t ((t.rotation + 90) % 360) k)).map
                  (·.id)) = s.placedTetrominos.map (·.id) := by
              apply List.ext_getElem
              · simp
              · intro n h1n h2n
                simp only [List.getElem_map, List.getElem_set]
                split
                · rename_i heqn
                  subst heqn
                  show t.id = s.placedTetrominos[idx].id
                  rw [hidx_eq]
                · rfl
            show ((s.placedTetrominos.set idx
              (rotateCommit s.contributionGrid t ((t.rotation + 90) % 360) k)).map
                (·.id)).Nodup
            rw [hids]
            exact hg.1
          · rw [List.pairwise_iff_getElem]
            intro i j hi hj hij
            have hi' : i < s.placedTetrominos.length := by simpa using hi
            have hj' : j < s.placedTetrominos.length := by simpa using hj
            have hpne := List.pairwise_iff_getElem.mp (ids_pairwise_ne hg.1)
            have hdisj := List.pairwise_iff_getElem.mp hg.2
            simp only [List.getElem_set]
            by_cases hiidx : idx = i <;> by_cases hjidx : idx = j
            · omega
            · subst hiidx
              rw [if_pos rfl, if_neg hjidx]
              intro c hcm hcj
              have hjji : t.id ≠ s.placedTetrominos[j].id := by
                have h' := hpne idx j hi' hj' hij
                rw [hidx_eq] at h'
                exact h'
              exact checkCollision_false_no_overlap hfree c hcm _
                (List.getElem_mem hj')
                (fun hcontra => hjji (Option.some_inj.mp hcontra)) hcj
            · subst hjidx
              rw [if_neg hiidx, if_pos rfl]
              intro c hci hcm
              have hjji : t.id ≠ s.placedTetrominos[i].id := by
                have h' := hpne i idx hi' hj' hij
                rw [hidx_eq] at h'
                exact fun hc => h' hc.symm
              exact absurd hci
                (checkCollision_false_no_overlap hfree c hcm _
                  (List.getElem_mem hi')
                  (fun hcontra => hjji (Option.some_inj.mp hcontra)))
            · rw [if_neg hiidx, if_neg hjidx]
              exact hdisj i j hi' hj' hij
  | delete id =>
    rw [step_delete]
    constructor
    · show ((s.placedTetrominos.filter fun t => t.id != id).map (·.id)).Nodup
      have hg1 : (s.placedTetrominos.map (·.id)).Nodup := hg.1
      exact List.Nodup.sublist
        (List.Sublist.map (fun p : PlacedTetromino => p.id) (List.filter_sublist _)) hg1
    · show (s.placedTetrominos.filter fun t => t.id != id).Pairwise Disj
      exact List.Pairwise.sublist (List.filter_sublist _) hg.2
  | refresh records =>
    by_cases hemp : records = []
    · subst hemp
      simpa [step] using hg
    · rw [step_refresh hemp]
      have habs : ∀ p ∈ s.placedTetrominos,
          (calculateTetrominoDetails
            (some (transformContributionsToGrid records)) p.type p.x p.y
            p.rotation).absolutePositions = p.absolutePositions := by
        intro p hp
        rw [calc_abs_grid_indep _ s.contributionGrid, (hb p hp).2.1]
      constructor
      · have hids_eq : idsOf (refreshGrid s records) = idsOf s := by
          unfold idsOf refreshGrid
          dsimp only
          rw [List.map_map]
          exact List.map_congr_left fun p _ => rfl
        show (idsOf (refreshGrid s records)).Nodup
        rw [hids_eq]
        exact hg.1
      · show (refreshGrid s records).placedTetrominos.Pairwise Disj
        unfold refreshGrid
        dsimp only
        rw [List.pairwise_map, List.pairwise_iff_getElem]
        intro i j hi hj hij
        have hdisj := List.pairwise_iff_getElem.mp hg.2 i j hi hj hij
        intro c hc1 hc2
        have hc1' : c ∈ (calculateTetrominoDetails
            (some (transformContributionsToGrid records))
            (s.placedTetrominos[i]).type (s.placedTetrominos[i]).x
            (s.placedTetrominos[i]).y
            (s.placedTetrominos[i]).rotation).absolutePositions := hc1
        have hc2' : c ∈ (calculateTetrominoDetails
            (some (transformContributionsToGrid records))
            (s.placedTetrominos[j]).type (s.placedTetrominos[j]).x
            (s.placedTetrominos[j]).y
            (s.placedTetrominos[j]).rotation).absolutePositions := hc2
        rw [habs _ (List.getElem_mem hi)] at hc1'
        rw [habs _ (List.getElem_mem hj)] at hc2'
        exact hdisj c hc1' hc2'

theorem invBase_run (ops : List Op) : ∀ s, InvBase s → InvBase (run s ops) := by
  induction ops with
  | nil => intro s h; exact h
  | cons op rest ih => intro s h; exact ih _ (invBase_step op h)

theorem invGeom_run (ops : List Op) :
    ∀ s, InvBase s → InvGeom s → freshRun s ops = true → InvGeom (run s ops) := by
  induction ops with
  | nil => intro s _ hg _; exact hg
  | cons op rest ih =>
    intro s hb hg hfr
    rw [freshRun, Bool.and_eq_true] at hfr
    exact ih _ (invBase_step op hb) (invGeom_step op hb hg hfr.1) hfr.2

theorem invBase_init : InvBase initialState := by
  intro p hp
  cases hp

theorem invGeom_init : InvGeom initialState :=
  ⟨List.nodup_nil, List.Pairwise.nil⟩

theorem translate_injective (x y : Int) :
    Function.Injective fun p : Int × Int => (x + p.1, y + p.2) := by
  intro a b hab
  simp only [Prod.mk.injEq] at hab
  obtain ⟨h1, h2⟩ := hab
  exact Prod.ext (by omega) (by omega)

theorem pieceOK_abs_eq {grid : Grid} {p : PlacedTetromino} (h : PieceOK grid p) :
    p.absolutePositions =
      (relativeShapeOf p.type p.rotation).map fun r => (p.x + r.1, p.y + r.2) := by
  have habs := congrArg TetrominoDetails.absolutePositions h.2.1
  rw [calc_absolutePositions] at habs
  exact habs.symm

theorem pieceOK_abs_length {grid : Grid} {p : PlacedTetromino} (h : PieceOK grid p) :
    p.absolutePositions.length = 4 := by
  rw [pieceOK_abs_eq h, List.length_map, relativeShapeOf_length]

theorem pieceOK_abs_nodup {grid : Grid} {p : PlacedTetromino} (h : PieceOK grid p) :
    p.absolutePositions.Nodup := by
  rw [pieceOK_abs_eq h]
  exact List.Nodup.map (translate_injective p.x p.y) (relativeShapeOf_nodup p.type h.1)

/-- The cell written by a present record. -/
def cellOfContribution (r : Contribution) : Cell :=
  { count := r.count, level := getContributionLevel r.count, date := some r.date }

theorem transformBody_loop (contributions : List Contribution) :
    ∀ n, n ≤ 56 → ∀ (y : Fin 7) (x : Fin 8),
      ((List.range n).foldl (transformBody contributions) transformInit) y x =
        if x.val * 7 + y.val < n then
          match contributions[x.val * 7 + y.val]? with
          | some r => cellOfContribution r
          | none => transformInit y x
        else transformInit y x := by
  intro n
  induction n with
  | zero =>
    intro _ y x
    simp
  | succ n ih =>
    intro hn y x
    have hn' : n ≤ 56 := by omega
    rw [List.range_succ, List.foldl_append, List.foldl_cons, List.foldl_nil]
    cases hcn : contributions[n]? with
    | none =>
      have hbody : transformBody contributions
          ((List.range n).foldl (transformBody contributions) transformInit) n =
          (List.range n).foldl (transformBody contributions) transformInit := by
        unfold transformBody
        rw [hcn]
      rw [hbody, ih hn' y x]
      by_cases hxy : x.val * 7 + y.val = n
      · rw [if_neg (by omega), if_pos (by omega), hxy, hcn]
      · by_cases hlt : x.val * 7 + y.val < n
        · rw [if_pos hlt, if_pos (by omega)]
        · rw [if_neg hlt, if_neg (by omega)]
    | some r =>
      have hn56 : n < 56 := by omega
      have hbody : transformBody contributions
          ((List.range n).foldl (transformBody contributions) transformInit) n =
          gridSet ((List.range n).foldl (transformBody contributions) transformInit)
            (n % 7) (n / 7) (cellOfContribution r) := by
        unfold transformBody
        rw [hcn]
        dsimp only
        rw [if_pos (show n % GRID_HEIGHT < GRID_HEIGHT ∧ n / GRID_HEIGHT < GRID_WIDTH from
          ⟨by unfold GRID_HEIGHT; omega, by unfold GRID_HEIGHT GRID_WIDTH; omega⟩)]
        rfl
      rw [hbody]
      unfold gridSet
      by_cases hcoord : y.val = n % 7 ∧ x.val = n / 7
      · have hxy : x.val * 7 + y.val = n := by
          obtain ⟨h1, h2⟩ := hcoord
          omega
        rw [if_pos hcoord, if_pos (by omega), hxy, hcn]
      · have hxy : x.val * 7 + y.val ≠ n := by
          intro heq
          apply hcoord
          have hy7 : y.val < 7 := y.isLt
          constructor <;> omega
        rw [if_neg hcoord, ih hn' y x]
        by_cases hlt : x.val * 7 + y.val < n
        · rw [if_pos hlt, if_pos (by omega)]
        · rw [if_neg hlt, if_neg (by omega)]

theorem transform_cell (contributions : List Contribution) (y : Fin 7) (x : Fin 8) :
    transformContributionsToGrid contributions y x =
      match contributions[x.val * 7 + y.val]? with
      | some r => cellOfContribution r
      | none => { count := 0, level := 0, date := none } := by
  have h := transformBody_loop contributions 56 (by omega) y x
  have hlt : x.val * 7 + y.val < 56 := by
    have hx := x.isLt
    have hy := y.isLt
    omega
  rw [if_pos hlt] at h
  exact h

theorem potentialScoreOf_eq_sum (l : List PlacedTetromino) :
    potentialScoreOf l = (l.map (·.scorePotential)).sum := by
  have aux : ∀ (l : List PlacedTetromino) (a : Int),
      l.foldl (fun sum piece => sum + piece.scorePotential) a =
        a + (l.map (·.scorePotential)).sum := by
    intro l
    induction l with
    | nil => intro a; simp
    | cons p tl ih =>
      intro a
      simp [List.foldl_cons, ih, add_assoc]
  have := aux l 0
  unfold potentialScoreOf
  simpa using this

theorem calc_score (g : Grid) (t : Tet) (x y : Int) (r : Nat) :
    (calculateTetrominoDetails g t x y r).scorePotential =
      ((calculateTetrominoDetails g t x y r).absolutePositions.map fun a =>
        getScoreFromContributionLevel (levelAtCell g a.1 a.2)).sum := by
  unfold calculateTetrominoDetails
  dsimp only
  rw [List.map_map]
  rfl

theorem pieceOK_score {grid : Grid} {p : PlacedTetromino} (h : PieceOK grid p) :
    p.scorePotential = (p.absolutePositions.map fun c =>
      getScoreFromContributionLevel (levelAtCell grid c.1 c.2)).sum := by
  have hscore := congrArg TetrominoDetails.scorePotential h.2.1
  have habs := congrArg TetrominoDetails.absolutePositions h.2.1
  dsimp only at hscore habs
  rw [← hscore, calc_score, habs]

theorem score_invariant {s : EngineState} (hb : InvBase s) :
    potentialScoreOf s.placedTetrominos =
      (s.placedTetrominos.map fun p => (p.absolutePositions.map fun c =>
        getScoreFromContributionLevel (levelAtCell s.contributionGrid c.1 c.2)).sum).sum := by
  rw [potentialScoreOf_eq_sum]
  rw [List.map_congr_left fun p hp => pieceOK_score (hb p hp)]

theorem transform_take (contributions : List Contribution) :
    transformContributionsToGrid contributions =
      transformContributionsToGrid (contributions.take 56) := by
  funext y x
  rw [transform_cell, transform_cell]
  have hlt : x.val * 7 + y.val < 56 := by
    have hx := x.isLt
    have hy := y.isLt
    omega
  rw [List.getElem?_take_of_lt hlt]

theorem levelAtCell_none (ax ay : Int) : levelAtCell none ax ay = 0 := rfl

theorem levelAtCell_oob {g : Grid} {ax ay : Int} (h : ¬ inBoundsCell (ax, ay)) :
    levelAtCell g ax ay = 0 := by
  cases g with
  | none => rfl
  | some g =>
    unfold levelAtCell
    dsimp only
    rw [dif_neg]
    intro hcond
    apply h
    obtain ⟨h1, h2, h3, h4⟩ := hcond
    exact ⟨h3, h4, h1, h2⟩

/-- C6: `getContributionLevel` is exactly the documented step function,
including the boundary values. -/
theorem C6_level_step_function :
    (getContributionLevel (-1) = 0 ∧ getContributionLevel 0 = 1 ∧
      getContributionLevel 1 = 2 ∧ getContributionLevel 5 = 2 ∧
      getContributionLevel 6 = 3 ∧ getContributionLevel 10 = 3 ∧
      getContributionLevel 11 = 4 ∧ getContributionLevel 20 = 4 ∧
      getContributionLevel 21 = 5) ∧
    ∀ count : Int,
      (20 < count → getContributionLevel count = 5) ∧
      (10 < count → count ≤ 20 → getContributionLevel count = 4) ∧
      (5 < count → count ≤ 10 → getContributionLevel count = 3) ∧
      (0 < count → count ≤ 5 → getContributionLevel count = 2) ∧
      (count = 0 → getContributionLevel count = 1) ∧
      (count < 0 → getContributionLevel count = 0) := by
  constructor
  · decide
  · intro count
    unfold getContributionLevel
    refine ⟨?_, ?_, ?_, ?_, ?_, ?_⟩ <;> intros <;> split_ifs <;> omega

/-- Witness for C6: the step function evaluated once in each interval. -/
theorem C6_level_step_function_witness :
    getContributionLevel 21 = 5 ∧ getContributionLevel 15 = 4 ∧
      getContributionLevel 8 = 3 ∧ getContributionLevel 3 = 2 ∧
      getContributionLevel 0 = 1 ∧ getContributionLevel (-2) = 0 :=
  ⟨(C6_level_step_function.2 21).1 (by decide),
    ((C6_level_step_function.2 15).2.1) (by decide) (by decide),
    ((C6_level_step_function.2 8).2.2.1) (by decide) (by decide),
    ((C6_level_step_function.2 3).2.2.2.1) (by decide) (by decide),
    ((C6_level_step_function.2 0).2.2.2.2.1) (by decide),
    ((C6_level_step_function.2 (-2)).2.2.2.2.2) (by decide)⟩

/-- C7: for every piece type, rotation in 0, 90, 180, 270, and requested
anchor, if the rotated shape's bounding box is at most 8 wide and at most
7 tall, `getAdjustedDropPosition` returns an anchor whose whole bounding
box lies within the grid. -/
theorem C7_clamp_in_bounds (type : Tet) (rotation : Nat) (hr : rotation ∈ rotSet)
    (dropX dropY : Int)
    (hw : listMax ((relativeShapeOf type rotation).map (·.1)) -
        listMin ((relativeShapeOf type rotation).map (·.1)) + 1 ≤ 8)
    (hh : listMax ((relativeShapeOf type rotation).map (·.2)) -
        listMin ((relativeShapeOf type rotation).map (·.2)) + 1 ≤ 7) :
    0 ≤ (getAdjustedDropPosition type rotation dropX dropY).1 +
        listMin ((relativeShapeOf type rotation).map (·.1)) ∧
      (getAdjustedDropPosition type rotation dropX dropY).1 +
        listMax ((relativeShapeOf type rotation).map (·.1)) < 8 ∧
      0 ≤ (getAdjustedDropPosition type rotation dropX dropY).2 +
        listMin ((relativeShapeOf type rotation).map (·.2)) ∧
      (getAdjustedDropPosition type rotation dropX dropY).2 +
        listMax ((relativeShapeOf type rotation).map (·.2)) < 7 :=
  adjusted_bbox_in_bounds type rotation dropX dropY hw hh

/-- Witness for C7: the vertical `I` piece dropped far outside the grid is
clamped back inside. -/
theorem C7_clamp_in_bounds_witness :
    90 ∈ rotSet ∧
    (listMax ((relativeShapeOf Tet.I 90).map (·.1)) -
        listMin ((relativeShapeOf Tet.I 90).map (·.1)) + 1 ≤ 8) ∧
    (listMax ((relativeShapeOf Tet.I 90).map (·.2)) -
        listMin ((relativeShapeOf Tet.I 90).map (·.2)) + 1 ≤ 7) ∧
    (0 ≤ (getAdjustedDropPosition Tet.I 90 (-5) (-5)).1 +
        listMin ((relativeShapeOf Tet.I 90).map (·.1)) ∧
      (getAdjustedDropPosition Tet.I 90 (-5) (-5)).1 +
        listMax ((relativeShapeOf Tet.I 90).map (·.1)) < 8 ∧
      0 ≤ (getAdjustedDropPosition Tet.I 90 (-5) (-5)).2 +
        listMin ((relativeShapeOf Tet.I 90).map (·.2)) ∧
      (getAdjustedDropPosition Tet.I 90 (-5) (-5)).2 +
        listMax ((relativeShapeOf Tet.I 90).map (·.2)) < 7) :=
  ⟨by decide, by decide, by decide,
    C7_clamp_in_bounds Tet.I 90 (by decide) (-5) (-5) (by decide) (by decide)⟩

/-- C10: the per-piece details computation is total for every grid (loaded
or not), type, rotation and anchor (even out of bounds): it always yields 4
cells and 4 block details, the potential is the sum of the per-cell scores,
each block's score is its level times 100, the level is read through
`levelAtCell`, and a missing grid or an out-of-bounds cell contributes
level 0 and score 0. -/
theorem C10_details_total (g : Grid) (t : Tet) (x y : Int) (r : Nat) :
    (calculateTetrominoDetails g t x y r).absolutePositions.length = 4 ∧
    (calculateTetrominoDetails g t x y r).blockDetails.length = 4 ∧
    (calculateTetrominoDetails g t x y r).scorePotential =
      ((calculateTetrominoDetails g t x y r).blockDetails.map (·.score)).sum ∧
    ∀ b ∈ (calculateTetrominoDetails g t x y r).blockDetails,
      b.score = b.level * 100 ∧
      b.level = levelAtCell g b.x b.y ∧
      ((g = none ∨ ¬ inBoundsCell (b.x, b.y)) → b.level = 0 ∧ b.score = 0) := by
  refine ⟨?_, ?_, rfl, ?_⟩
  · rw [calc_absolutePositions, List.length_map, relativeShapeOf_length]
  · show ((calculateTetrominoDetails g t x y r).absolutePositions.map _).length = 4
    rw [List.length_map, calc_absolutePositions, List.length_map,
      relativeShapeOf_length]
  · intro b hb
    obtain ⟨a, _, rfl⟩ := List.mem_map.mp hb
    refine ⟨rfl, rfl, ?_⟩
    rintro (hnone | hoob)
    · subst hnone
      exact ⟨rfl, rfl⟩
    · have h0 : levelAtCell g a.1 a.2 = 0 := levelAtCell_oob hoob
      constructor
      · exact h0
      · show getScoreFromContributionLevel (levelAtCell g a.1 a.2) = 0
        rw [h0]
        rfl

/-- Witness for C10: the `I` piece anchored one column outside an absent
grid has a first block with level 0 and score 0. -/
theorem C10_details_total_witness :
    ({ x := -1, y := 0, level := 0, score := 0, colorIndex := -1 : BlockDetail } ∈
      (calculateTetrominoDetails none Tet.I (-1) 0 0).blockDetails) ∧
    ({ x := -1, y := 0, level := 0, score := 0, colorIndex := -1 : BlockDetail }.level = 0 ∧
      { x := -1, y := 0, level := 0, score := 0, colorIndex := -1 : BlockDetail }.score = 0) :=
  ⟨by decide,
    ((C10_details_total none Tet.I (-1) 0 0).2.2.2 _ (by decide)).2.2
      (Or.inl rfl)⟩

/-- Counterexample to C4 as stated: loading a single record leaves cell
`(x, y) = (0, 1)` (index 1) at the literal default `{count 0, level 0, no
date}`, whose level is `0` and NOT `levelOf(0) = 1` as the claim asserts. -/
theorem C4_counterexample :
    transformContributionsToGrid [{ count := 3, date := "2024-01-01" }] 1 0 =
      { count := 0, level := 0, date := none } ∧
    getContributionLevel 0 = 1 ∧
    ¬ (transformContributionsToGrid [{ count := 3, date := "2024-01-01" }] 1 0).level =
        getContributionLevel 0 := by
  refine ⟨by decide, by decide, by decide⟩

/-- C4 (amended): `transformContributionsToGrid` stores record `i`
(`i < 56`) at `x = i / 7`, `y = i % 7` with its count, derived level and
date; records with index at least 56 are ignored (the grid only depends on
the first 56 records); and a cell whose index has no record is left at the
literal default `{count 0, level 0, no date}` — level 0, not
`levelOf(0) = 1`. -/
theorem C4_load_column_major (contributions : List Contribution) (i : Nat)
    (hi : i < 56) :
    (∀ r : Contribution, contributions[i]? = some r →
      transformContributionsToGrid contributions ⟨i % 7, by omega⟩ ⟨i / 7, by omega⟩ =
        { count := r.count, level := getContributionLevel r.count
          date := some r.date }) ∧
    (contributions[i]? = none →
      transformContributionsToGrid contributions ⟨i % 7, by omega⟩ ⟨i / 7, by omega⟩ =
        { count := 0, level := 0, date := none }) ∧
    transformContributionsToGrid contributions =
      transformContributionsToGrid (contributions.take 56) := by
  have hidx : (i / 7) * 7 + i % 7 = i := by omega
  refine ⟨?_, ?_, transform_take contributions⟩
  · intro r hr
    rw [transform_cell]
    show (match contributions[(i / 7) * 7 + i % 7]? with
      | some r => cellOfContribution r
      | none => { count := 0, level := 0, date := none }) = _
    rw [hidx, hr]
    rfl
  · intro hr
    rw [transform_cell]
    show (match contributions[(i / 7) * 7 + i % 7]? with
      | some r => cellOfContribution r
      | none => { count := 0, level := 0, date := none }) = _
    rw [hidx, hr]

/-- Witness for C4: a one-record load fills cell `(0, 0)` from the record
and leaves cell index 1 at the default. -/
theorem C4_load_column_major_witness :
    (([{ count := 3, date := "2024-01-01" }] : List Contribution)[0]? =
      some { count := 3, date := "2024-01-01" }) ∧
    transformContributionsToGrid [{ count := 3, date := "2024-01-01" }]
      ⟨0 % 7, by omega⟩ ⟨0 / 7, by omega⟩ =
      { count := 3, level := getContributionLevel 3, date := some "2024-01-01" } ∧
    (([{ count := 3, date := "2024-01-01" }] : List Contribution)[1]? = none) ∧
    transformContributionsToGrid [{ count := 3, date := "2024-01-01" }]
      ⟨1 % 7, by omega⟩ ⟨1 / 7, by omega⟩ =
      { count := 0, level := 0, date := none } :=
  ⟨by decide,
    (C4_load_column_major [{ count := 3, date := "2024-01-01" }] 0 (by omega)).1
      { count := 3, date := "2024-01-01" } (by decide),
    by decide,
    (C4_load_column_major [{ count := 3, date := "2024-01-01" }] 1 (by omega)).2.1
      (by decide)⟩

/-- C5 is violated by the code: `Date.now()` can return the same value for
two placements in the same millisecond; both `place` calls then succeed and
insert pieces carrying the same id `7`. -/
theorem C5_duplicate_ids :
    (run initialState
      [Op.place Tet.I 0 0 7, Op.place Tet.O 5 5 7]).placedTetrominos.map (·.id) =
      [7, 7] ∧
    (run initialState
      [Op.place Tet.I 0 0 7, Op.place Tet.O 5 5 7]).placedTetrominos.length = 2 := by
  refine ⟨by decide, by decide⟩

/-- C2: after every sequence of mutations (place, move, rotate, delete,
grid refresh) starting from the initial state, the aggregate score (the
`reduce` over `scorePotential`) equals the sum over all placed pieces of
the sum over that piece's cells of the cell's level (in the current grid)
times 100. -/
theorem C2_aggregate_score (ops : List Op) :
    potentialScoreOf (run initialState ops).placedTetrominos =
      ((run initialState ops).placedTetrominos.map fun p =>
        (p.absolutePositions.map fun c =>
          levelAtCell (run initialState ops).contributionGrid c.1 c.2 * 100).sum).sum :=
  score_invariant (invBase_run ops initialState invBase_init)

/-- Counterexample to C1 as stated: two same-millisecond placements share
the id 7; moving id 7 then succeeds (both entries are excluded from the
collision check) and replaces BOTH entries with the moved piece, leaving
two distinct entries of the collection with identical, overlapping cell
sets. -/
theorem C1_counterexample :
    ((run initialState [Op.place Tet.I 0 0 7, Op.place Tet.O 5 5 7,
        Op.move 7 4 1 9]).placedTetrominos.length = 2) ∧
    ((run initialState [Op.place Tet.I 0 0 7, Op.place Tet.O 5 5 7,
        Op.move 7 4 1 9]).placedTetrominos.map (·.absolutePositions) =
      [[(3, 1), (4, 1), (5, 1), (6, 1)], [(3, 1), (4, 1), (5, 1), (6, 1)]]) ∧
    ¬ (run initialState [Op.place Tet.I 0 0 7, Op.place Tet.O 5 5 7,
        Op.move 7 4 1 9]).placedTetrominos.Pairwise
      (fun p q => ∀ c ∈ p.absolutePositions, c ∉ q.absolutePositions) := by
  refine ⟨by decide, by decide, by decide⟩

/-- C1 (amended): provided every id-generating timestamp is distinct from
the ids already in the collection (`freshRun`), after every operation
sequence each placed piece has exactly 4 distinct cells, all inside the
8 × 7 grid, and the cell sets of any two distinct entries are disjoint. -/
theorem C1_placement_invariants (ops : List Op)
    (hfresh : freshRun initialState ops = true) :
    (∀ p ∈ (run initialState ops).placedTetrominos,
      p.absolutePositions.length = 4 ∧ p.absolutePositions.Nodup ∧
      ∀ c ∈ p.absolutePositions, 0 ≤ c.1 ∧ c.1 < 8 ∧ 0 ≤ c.2 ∧ c.2 < 7) ∧
    (run initialState ops).placedTetrominos.Pairwise
      (fun p q => ∀ c ∈ p.absolutePositions, c ∉ q.absolutePositions) := by
  have hb := invBase_run ops initialState invBase_init
  have hg := invGeom_run ops initialState invBase_init invGeom_init hfresh
  constructor
  · intro p hp
    have hOK := hb p hp
    exact ⟨pieceOK_abs_length hOK, pieceOK_abs_nodup hOK, fun c hc => hOK.2.2 c hc⟩
  · exact hg.2

/-- Witness for C1: placing `I` and then `O` with fresh timestamps. -/
theorem C1_placement_invariants_witness :
    freshRun initialState [Op.place Tet.I 0 0 7, Op.place Tet.O 5 5 8] = true ∧
    ((∀ p ∈ (run initialState
        [Op.place Tet.I 0 0 7, Op.place Tet.O 5 5 8]).placedTetrominos,
      p.absolutePositions.length = 4 ∧ p.absolutePositions.Nodup ∧
      ∀ c ∈ p.absolutePositions, 0 ≤ c.1 ∧ c.1 < 8 ∧ 0 ≤ c.2 ∧ c.2 < 7) ∧
    (run initialState
      [Op.place Tet.I 0 0 7, Op.place Tet.O 5 5 8]).placedTetrominos.Pairwise
      (fun p q => ∀ c ∈ p.absolutePositions, c ∉ q.absolutePositions)) :=
  ⟨by decide,
    C1_placement_invariants [Op.place Tet.I 0 0 7, Op.place Tet.O 5 5 8] (by decide)⟩

/-- C3: for a placed piece, `handleRotate` targets
`newRotation = (rotation + 90) % 360` and tries the wall-kick offsets in
the exact order of `kickTranslations`, each added to the current anchor and
clamped for the new rotation; a kick is rejected exactly when its cells
overlap another piece (bounds never reject a clamped kick); the first
non-colliding kick is committed (rotation, anchor and derived fields all
updated via `rotateCommit`), so offsets after the first success are never
taken; if every kick collides the state is unchanged. -/
theorem C3_rotate_first_kick (st : EngineState) (id idx : Nat)
    (t : PlacedTetromino)
    (h1 : st.placedTetrominos.findIdx? (fun q => q.id == id) = some idx)
    (h2 : st.placedTetrominos[idx]? = some t)
    (hrot : t.rotation ∈ rotSet) :
    (∀ k ∈ kickTranslations,
      (kickCollides st t ((t.rotation + 90) % 360) k = true ↔
        ∃ p ∈ st.placedTetrominos, t.id ≠ p.id ∧
          ∃ c ∈ kickCells st t ((t.rotation + 90) % 360) k,
            c ∈ p.absolutePositions)) ∧
    (∀ ks₁ (k : Int × Int) ks₂, kickTranslations = ks₁ ++ k :: ks₂ →
      (∀ k' ∈ ks₁, kickCollides st t ((t.rotation + 90) % 360) k' = true) →
      kickCollides st t ((t.rotation + 90) % 360) k = false →
      handleRotate st id =
        { st with
          placedTetrominos := st.placedTetrominos.set idx
            (rotateCommit st.contributionGrid t ((t.rotation + 90) % 360) k) }) ∧
    ((∀ k ∈ kickTranslations,
        kickCollides st t ((t.rotation + 90) % 360) k = true) →
      handleRotate st id = st) := by
  have hnr : (t.rotation + 90) % 360 ∈ rotSet := rot_next hrot
  refine ⟨?_, ?_, ?_⟩
  · intro k _
    have hbnd : ∀ c ∈ kickCells st t ((t.rotation + 90) % 360) k, inBoundsCell c :=
      cells_in_bounds_of_adjusted st.contributionGrid t.type hnr
        (t.x + k.1) (t.y + k.2)
    rw [show kickCollides st t ((t.rotation + 90) % 360) k =
        checkCollision (kickCells st t ((t.rotation + 90) % 360) k)
          (some t.id) st.placedTetrominos from rfl]
    rw [checkCollision_true_iff hbnd]
    constructor
    · rintro ⟨p, hp, hne, c, hc, hcp⟩
      exact ⟨p, hp, fun h => hne (by rw [h]), c, hc, hcp⟩
    · rintro ⟨p, hp, hne, c, hc, hcp⟩
      exact ⟨p, hp, fun h => hne (Option.some_inj.mp h), c, hc, hcp⟩
  · intro ks₁ k ks₂ heq hfail hfree
    rw [handleRotate_eq h1 h2, heq, rotateKickLoop_first ks₁ k ks₂ hfail hfree]
  · intro hall
    rw [handleRotate_eq h1 h2, rotateKickLoop_all_collide kickTranslations hall]

/-- The single horizontal `I` piece used by the C3 witness. -/
def c3Piece : PlacedTetromino :=
  { id := 7, type := Tet.I, x := 0, y := 0, rotation := 0
    absolutePositions := [(0, 0), (1, 0), (2, 0), (3, 0)]
    scorePotential := 0, blockDetails := [] }

/-- The state holding only `c3Piece` over an absent grid. -/
def c3State : EngineState :=
  { contributionGrid := none, placedTetrominos := [c3Piece] }

/-- Witness for C3: rotating the lone `I` piece succeeds at the very first
kick offset `(0, 0)` and commits the vertical placement. -/
theorem C3_rotate_first_kick_witness :
    handleRotate c3State 7 =
      { c3State with
        placedTetrominos := c3State.placedTetrominos.set 0
          (rotateCommit c3State.contributionGrid c3Piece
            ((c3Piece.rotation + 90) % 360) (0, 0)) } :=
  (C3_rotate_first_kick c3State 7 0 c3Piece (by decide) (by decide)
      (by decide)).2.1
    [] (0, 0) [(-1, 0), (1, 0), (-2, 0), (2, 0)] rfl
    (fun k' hk' => absurd hk' (List.not_mem_nil k'))
    (by decide)

/-- C8: a failing operation never mutates the piece collection: a rejected
place or move leaves the state unchanged, a rotation all of whose kicks
collide leaves the state unchanged, and deleting an absent id is a silent
no-op. -/
theorem C8_failed_ops_noop (st : EngineState) :
    (∀ (type : Tet) (dX dY : Int) (now : Nat),
      handlePlacement st type 0 dX dY none now = none →
      step st (Op.place type dX dY now) = st) ∧
    (∀ (id : Nat) (dX dY : Int) (now : Nat) (t : PlacedTetromino),
      st.placedTetrominos.find? (fun q => q.id == id) = some t →
      handlePlacement st t.type t.rotation dX dY (some id) now = none →
      step st (Op.move id dX dY now) = st) ∧
    (∀ (id idx : Nat) (t : PlacedTetromino),
      st.placedTetrominos.findIdx? (fun q => q.id == id) = some idx →
      st.placedTetrominos[idx]? = some t →
      (∀ k ∈ kickTranslations,
        kickCollides st t ((t.rotation + 90) % 360) k = true) →
      step st (Op.rotate id) = st) ∧
    (∀ id : Nat, (∀ t ∈ st.placedTetrominos, t.id ≠ id) →
      step st (Op.delete id) = st) := by
  refine ⟨?_, ?_, ?_, ?_⟩
  · intro type dX dY now h
    exact step_place_none h
  · intro id dX dY now t hf h
    exact step_move_none hf h
  · intro id idx t h1 h2 hall
    rw [step_rotate, handleRotate_eq h1 h2,
      rotateKickLoop_all_collide kickTranslations hall]
  · intro id h
    rw [step_delete]
    have hfil : st.placedTetrominos.filter (fun t => t.id != id) =
        st.placedTetrominos :=
      List.filter_eq_self.mpr fun a ha => by simpa using h a ha
    rw [hfil]

/-- The pieces of the C8 witness state: a horizontal `I` in the top row and
three `O` pieces blocking rows 1–2 in columns 0–5. -/
def c8I : PlacedTetromino :=
  { id := 1, type := Tet.I, x := 0, y := 0, rotation := 0
    absolutePositions := [(0, 0), (1, 0), (2, 0), (3, 0)]
    scorePotential := 0, blockDetails := [] }

/-- First `O` blocker of the C8 witness state. -/
def c8O1 : PlacedTetromino :=
  { id := 2, type := Tet.O, x := 0, y := 1, rotation := 0
    absolutePositions := [(0, 1), (1, 1), (0, 2), (1, 2)]
    scorePotential := 0, blockDetails := [] }

/-- Second `O` blocker of the C8 witness state. -/
def c8O2 : PlacedTetromino :=
  { id := 3, type := Tet.O, x := 2, y := 1, rotation := 0
    absolutePositions := [(2, 1), (3, 1), (2, 2), (3, 2)]
    scorePotential := 0, blockDetails := [] }

/-- Third `O` blocker of the C8 witness state. -/
def c8O3 : PlacedTetromino :=
  { id := 4, type := Tet.O, x := 4, y := 1, rotation := 0
    absolutePositions := [(4, 1), (5, 1), (4, 2), (5, 2)]
    scorePotential := 0, blockDetails := [] }

/-- The C8 witness state. -/
def c8State : EngineState :=
  { contributionGrid := none, placedTetrominos := [c8I, c8O1, c8O2, c8O3] }

/-- Witness for C8: a colliding place, a colliding move, a rotation whose
five kicks all collide, and a delete of an absent id, all leave `c8State`
unchanged. -/
theorem C8_failed_ops_noop_witness :
    step c8State (Op.place Tet.T 1 1 99) = c8State ∧
    step c8State (Op.move 2 1 0 99) = c8State ∧
    step c8State (Op.rotate 1) = c8State ∧
    step c8State (Op.delete 99) = c8State :=
  ⟨(C8_failed_ops_noop c8State).1 Tet.T 1 1 99 (by decide),
    (C8_failed_ops_noop c8State).2.1 2 1 0 99 c8O1 (by decide) (by decide),
    (C8_failed_ops_noop c8State).2.2.1 1 0 c8I (by decide) (by decide) (by decide),
    (C8_failed_ops_noop c8State).2.2.2 99 (by decide)⟩

/-- C9: a grid refresh with a nonempty payload, applied to any reachable
state, replaces the grid wholesale and recomputes every piece's score
against the new grid while leaving the piece's id, type, anchor, rotation
and absolute cells unchanged; no piece is removed. -/
theorem C9_refresh_preserves_pieces (ops : List Op)
    (records : List Contribution) (hne : records ≠ []) :
    (step (run initialState ops) (Op.refresh records)).contributionGrid =
      some (transformContributionsToGrid records) ∧
    (step (run initialState ops) (Op.refresh records)).placedTetrominos.length =
      (run initialState ops).placedTetrominos.length ∧
    (step (run initialState ops) (Op.refresh records)).placedTetrominos.map (·.id) =
      (run initialState ops).placedTetrominos.map (·.id) ∧
    (step (run initialState ops) (Op.refresh records)).placedTetrominos.map (·.type) =
      (run initialState ops).placedTetrominos.map (·.type) ∧
    (step (run initialState ops) (Op.refresh records)).placedTetrominos.map (·.x) =
      (run initialState ops).placedTetrominos.map (·.x) ∧
    (step (run initialState ops) (Op.refresh records)).placedTetrominos.map (·.y) =
      (run initialState ops).placedTetrominos.map (·.y) ∧
    (step (run initialState ops) (Op.refresh records)).placedTetrominos.map (·.rotation) =
      (run initialState ops).placedTetrominos.map (·.rotation) ∧
    (step (run initialState ops) (Op.refresh records)).placedTetrominos.map
        (·.absolutePositions) =
      (run initialState ops).placedTetrominos.map (·.absolutePositions) ∧
    ∀ p ∈ (step (run initialState ops) (Op.refresh records)).placedTetrominos,
      p.scorePotential = (p.absolutePositions.map fun c =>
        levelAtCell (some (transformContributionsToGrid records)) c.1 c.2 * 100).sum := by
  have hb := invBase_run ops initialState invBase_init
  have hb' := invBase_step (Op.refresh records) hb
  rw [step_refresh hne] at hb' ⊢
  have habs : ∀ p ∈ (run initialState ops).placedTetrominos,
      (calculateTetrominoDetails (some (transformContributionsToGrid records))
        p.type p.x p.y p.rotation).absolutePositions = p.absolutePositions := by
    intro p hp
    rw [calc_abs_grid_indep _ (run initialState ops).contributionGrid, (hb p hp).2.1]
  refine ⟨rfl, ?_, ?_, ?_, ?_, ?_, ?_, ?_, ?_⟩
  · show ((run initialState ops).placedTetrominos.map
      (refreshPiece (some (transformContributionsToGrid records)))).length = _
    rw [List.length_map]
  · show (((run initialState ops).placedTetrominos.map
      (refreshPiece (some (transformContributionsToGrid records)))).map (·.id)) = _
    rw [List.map_map]
    exact List.map_congr_left fun p _ => rfl
  · show (((run initialState ops).placedTetrominos.map
      (refreshPiece (some (transformContributionsToGrid records)))).map (·.type)) = _
    rw [List.map_map]
    exact List.map_congr_left fun p _ => rfl
  · show (((run initialState ops).placedTetrominos.map
      (refreshPiece (some (transformContributionsToGrid records)))).map (·.x)) = _
    rw [List.map_map]
    exact List.map_congr_left fun p _ => rfl
  · show (((run initialState ops).placedTetrominos.map
      (refreshPiece (some (transformContributionsToGrid records)))).map (·.y)) = _
    rw [List.map_map]
    exact List.map_congr_left fun p _ => rfl
  · show (((run initialState ops).placedTetrominos.map
      (refreshPiece (some (transformContributionsToGrid records)))).map (·.rotation)) = _
    rw [List.map_map]
    exact List.map_congr_left fun p _ => rfl
  · show (((run initialState ops).placedTetrominos.map
      (refreshPiece (some (transformContributionsToGrid records)))).map
        (·.absolutePositions)) = _
    rw [List.map_map]
    exact List.map_congr_left fun p hp => habs p hp
  · intro p hp
    exact pieceOK_score (hb' p hp)

/-- Witness for C9: refreshing after one placement. -/
theorem C9_refresh_preserves_pieces_witness :
    ([({ count := 1, date := "2024-01-02" } : Contribution)] ≠ []) ∧
    (step (run initialState [Op.place Tet.I 0 0 7])
        (Op.refresh [{ count := 1, date := "2024-01-02" }])).placedTetrominos.map
      (·.absolutePositions) =
      (run initialState [Op.place Tet.I 0 0 7]).placedTetrominos.map
        (·.absolutePositions) :=
  ⟨by decide,
    (C9_refresh_preserves_pieces [Op.place Tet.I 0 0 7]
      [{ count := 1, date := "2024-01-02" }] (by decide)).2.2.2.2.2.2.2.1⟩

end Gitris
